import Mathlib

/-!
Verification of the BGB knowledge-graph curation pipeline
(`kg_curation/transform_raw_data.py`, `kg_curation/model.py`,
`kg_curation/build_graph.py`, `kg_search_index/build_solr_index.py`).

Strings are modelled as `List Char` (`Str`).  Python regular expressions
are embedded as deterministic scanners that reproduce the leftmost-match,
greedy semantics of the concrete patterns used by the source
(`NORM_IDENT_RE`, `PARA_SPLIT_RE`, `REFERENCE_RE`, `CONCEPT_DEF_RE`,
`norm_(\w+)`, `para_(\w+)`).  Character classes cover ASCII plus the
German letters appearing in those patterns.
-/

namespace KG

abbrev Str := List Char

def strData (s : String) : Str := s.data

/-- Python `\s` (`str.strip` / `\s*` in the regexes): ASCII whitespace. -/
def isPySpace (c : Char) : Bool :=
  c = ' ' || c = '\t' || c = '\n' || c = '\r' || c = '\x0b' || c = '\x0c'

/-- `[A-ZÄÖÜ]`, the first character of a concept word in `CONCEPT_DEF_RE`. -/
def isUpperDe (c : Char) : Bool :=
  ('A' ≤ c && c ≤ 'Z') || c = 'Ä' || c = 'Ö' || c = 'Ü'

/-- `[a-zäöüA-ZÄÖÜ]`, the tail characters of a concept word. -/
def isTailDe (c : Char) : Bool :=
  ('a' ≤ c && c ≤ 'z') || ('A' ≤ c && c ≤ 'Z') ||
  c = 'ä' || c = 'ö' || c = 'ü' || c = 'Ä' || c = 'Ö' || c = 'Ü'

/-- Python `\w` (for `\b` and `norm_(\w+)`), restricted to the alphabet of
the corpus: ASCII alphanumerics, underscore and the German letters. -/
def isWordCh (c : Char) : Bool :=
  ('a' ≤ c && c ≤ 'z') || ('A' ≤ c && c ≤ 'Z') || ('0' ≤ c && c ≤ '9') ||
  c = '_' || c = 'ä' || c = 'ö' || c = 'ü' || c = 'Ä' || c = 'Ö' || c = 'Ü' || c = 'ß'

/-- `[a-zA-Z]`, the optional letter of `NORM_IDENT_RE` / `REFERENCE_RE`. -/
def isAsciiAlpha (c : Char) : Bool :=
  ('a' ≤ c && c ≤ 'z') || ('A' ≤ c && c ≤ 'Z')

/-- Python `str.lower` on the corpus alphabet. -/
def lowerCh (c : Char) : Char :=
  if 'A' ≤ c && c ≤ 'Z' then Char.ofNat (c.toNat + 32)
  else if c = 'Ä' then 'ä' else if c = 'Ö' then 'ö' else if c = 'Ü' then 'ü'
  else c

def pyLower (s : Str) : Str := s.map lowerCh

/-- Python `str.strip`. -/
def strip (s : Str) : Str :=
  ((s.dropWhile isPySpace).reverse.dropWhile isPySpace).reverse

/-- `isPrefOf p s` is true when `p` is an initial segment of `s`. -/
def isPrefOf : Str → Str → Bool
  | [], _ => true
  | _ :: _, [] => false
  | a :: as, b :: bs => a = b && isPrefOf as bs

/-- `isSubOf n h` is true when `n` occurs as a contiguous substring of `h`. -/
def isSubOf : Str → Str → Bool
  | n, [] => isPrefOf n []
  | n, h :: t => isPrefOf n (h :: t) || isSubOf n t

/-- Python substring test `needle in hay`. -/
def pyContains (hay needle : Str) : Bool := isSubOf needle hay

/-!
The recursive scanners below consume at least one character of the
remaining input per step, so running them with `fuel = length of the
input` never exhausts the fuel; the fuel only makes the recursion
structural (hence kernel-reducible on concrete inputs).
-/

/-- `PARA_SPLIT_RE = re.compile(r"\((\d+)\)")`, used through `re.split`.
`paraScan t = (lead, pairs)` where `lead` is the text before the first
marker and `pairs` the `(captured number, following text)` pairs, exactly
the odd/even positions of Python `PARA_SPLIT_RE.split(t)`. -/
def paraScanF : Nat → Str → Str × List (Str × Str)
  | _, [] => ([], [])
  | 0, s => (s, [])
  | fuel + 1, c :: rest =>
    if c = '(' ∧ rest.takeWhile Char.isDigit ≠ [] ∧
        (rest.dropWhile Char.isDigit).head? = some ')' then
      ([], (rest.takeWhile Char.isDigit,
            (paraScanF fuel ((rest.dropWhile Char.isDigit).tail)).1) ::
        (paraScanF fuel ((rest.dropWhile Char.isDigit).tail)).2)
    else
      ((c :: (paraScanF fuel rest).1), (paraScanF fuel rest).2)

def paraScan (s : Str) : Str × List (Str × Str) := paraScanF s.length s

/-- `re.split(r"\n\n+", t)`: segments separated by runs of two or more
newlines. -/
def blankSplitF : Nat → Str → List Str
  | _, [] => [[]]
  | 0, s => [s]
  | fuel + 1, c :: rest =>
    if c = '\n' ∧ rest.head? = some '\n' then
      [] :: blankSplitF fuel (rest.dropWhile (· = '\n'))
    else
      match blankSplitF fuel rest with
      | [] => [[c]]
      | seg :: segs => (c :: seg) :: segs

def blankSplit (s : Str) : List Str := blankSplitF s.length s

/-- `NORM_IDENT_RE` = `REFERENCE_RE` = `re.compile(r"§\s*([0-9]+[a-zA-Z]?)")`.
`identScan s` returns `(group0, group1, rest after the match)` for the
leftmost match, scanning one position at a time like the `re` engine. -/
def identScan : Str → Option (Str × Str × Str)
  | [] => none
  | c :: rest =>
    if c = '§' ∧ (rest.dropWhile isPySpace).takeWhile Char.isDigit ≠ [] then
      match (rest.dropWhile isPySpace).dropWhile Char.isDigit with
      | l :: r2 =>
        if isAsciiAlpha l then
          some ('§' :: (rest.takeWhile isPySpace ++
                  (rest.dropWhile isPySpace).takeWhile Char.isDigit ++ [l]),
                (rest.dropWhile isPySpace).takeWhile Char.isDigit ++ [l], r2)
        else
          some ('§' :: (rest.takeWhile isPySpace ++
                  (rest.dropWhile isPySpace).takeWhile Char.isDigit),
                (rest.dropWhile isPySpace).takeWhile Char.isDigit, l :: r2)
      | [] =>
        some ('§' :: (rest.takeWhile isPySpace ++
                (rest.dropWhile isPySpace).takeWhile Char.isDigit),
              (rest.dropWhile isPySpace).takeWhile Char.isDigit, [])
    else identScan rest

/-- `REFERENCE_RE.finditer`: the list of `(group0, group1)` for every
non-overlapping match, left to right (a match consumes at least two
characters, so `fuel = length` suffices). -/
def refScanAllF : Nat → Str → List (Str × Str)
  | 0, _ => []
  | fuel + 1, s =>
    match identScan s with
    | none => []
    | some g => (g.1, g.2.1) :: refScanAllF fuel g.2.2

def refScanAll (s : Str) : List (Str × Str) := refScanAllF s.length s

/-- One concept word `[A-ZÄÖÜ][a-zäöüA-ZÄÖÜ]+` (maximal munch); on failure
returns `([], s)`. -/
def takeWord : Str → Str × Str
  | [] => ([], [])
  | c :: rest =>
    if isUpperDe c ∧ rest.takeWhile isTailDe ≠ [] then
      (c :: rest.takeWhile isTailDe, rest.dropWhile isTailDe)
    else ([], c :: rest)

/-- The greedy extension points of `(?:\s+[A-ZÄÖÜ][a-zäöüA-ZÄÖÜ]+)*`:
for each further word, the cumulative captured text (including the
whitespace exactly as matched) together with the rest of the input (an
extension consumes at least three characters). -/
def collectWordsF : Nat → Str → Str → List (Str × Str)
  | 0, _, _ => []
  | fuel + 1, acc, s =>
    if s.takeWhile isPySpace ≠ [] ∧ (takeWord (s.dropWhile isPySpace)).1 ≠ [] then
      (acc ++ s.takeWhile isPySpace ++ (takeWord (s.dropWhile isPySpace)).1,
          (takeWord (s.dropWhile isPySpace)).2) ::
        collectWordsF fuel
          (acc ++ s.takeWhile isPySpace ++ (takeWord (s.dropWhile isPySpace)).1)
          (takeWord (s.dropWhile isPySpace)).2
    else []

def collectWords (acc : Str) (s : Str) : List (Str × Str) :=
  collectWordsF s.length acc s

/-- The tail `\b\s+ist\b` of `CONCEPT_DEF_RE`, checked right after the
captured group; returns the rest of the input after `ist`. -/
def checkIst : Str → Option Str
  | [] => none
  | c :: rest =>
    if isWordCh c then none
    else if (c :: rest).takeWhile isPySpace = [] then none
    else
      match (c :: rest).dropWhile isPySpace with
      | a :: b :: d :: r2 =>
        if a = 'i' ∧ b = 's' ∧ d = 't' ∧ r2.head?.all (fun e => !(isWordCh e)) then
          some r2
        else none
      | _ => none

/-- First candidate (longest first, mirroring greedy backtracking of the
star) whose tail satisfies `\b\s+ist\b`. -/
def firstIst : List (Str × Str) → Option (Str × Str)
  | [] => none
  | (lab, r) :: more =>
    match checkIst r with
    | some r2 => some (lab, r2)
    | none => firstIst more

/-- A whole `CONCEPT_DEF_RE` match attempt at the current position:
`some (group1, rest after the match)` on success.  The candidate group
texts are tried longest first, as the greedy `(?:\s+word)*` does. -/
def conceptAt (s : Str) : Option (Str × Str) :=
  if (takeWord s).1 = [] then none
  else
    firstIst ((((takeWord s).1, (takeWord s).2) ::
      collectWords (takeWord s).1 (takeWord s).2).reverse)

/-- `CONCEPT_DEF_RE.finditer`: the list of `group(1)` captures, scanning
left to right with `\b` tracked through the previous character, resuming
after each match end (a match consumes at least six characters). -/
def conceptScanF : Nat → Option Char → Str → List Str
  | 0, _, _ => []
  | _, _, [] => []
  | fuel + 1, prev, c :: rest =>
    if (match prev with | none => true | some p => !(isWordCh p)) then
      match conceptAt (c :: rest) with
      | some g => g.1 :: conceptScanF fuel (some 't') g.2
      | none => conceptScanF fuel (some c) rest
    else conceptScanF fuel (some c) rest

def conceptScan (prev : Option Char) (s : Str) : List Str :=
  conceptScanF s.length prev s

/-- The Pydantic models of `model.py`, with `Optional[str]` fields
represented by `Str` (Python falsy `None`/`""` both modelled by `[]`,
matching how the code only ever tests truthiness). -/
structure ParagraphReference where
  target_norm_id : Str
  text_snippet : Str
deriving DecidableEq

structure LegalConcept where
  id : Str
  label : Str
  defined_in : Str
deriving DecidableEq

structure Paragraph where
  id : Str
  paragraph_identifier : Str
  text_content : Str
  defines_concepts : List LegalConcept
  refers_to : List ParagraphReference
deriving DecidableEq

structure Norm where
  id : Str
  norm_identifier : Str
  title : Str
  is_repealed : Bool
  paragraphs : List Paragraph
deriving DecidableEq

structure LegalCode where
  id : Str
  title : Str
  norms : List Norm
  concepts : List LegalConcept
deriving DecidableEq

def natToStr (n : Nat) : Str := Nat.toDigits 10 n

/-- Python `s.split(':')[1]`: the segment between the first and second
colon. -/
def colonSecond (s : Str) : Str :=
  ((s.dropWhile (· ≠ ':')).tail).takeWhile (· ≠ ':')

def pyReplaceSpace (s : Str) : Str := s.map (fun c => if c = ' ' then '_' else c)

/-- The suffix-search loop of `build_paragraphs`: `number = orig`,
`counter = 1`, `while number in seen: number = f"{orig}_{counter}" ...`.
The candidates `orig, orig_1, orig_2, …` are pairwise distinct strings, so
`seen.length + 1` attempts always reach one outside `seen`; the fuel is
therefore never exhausted. -/
def disambigGo (seen : List Str) (orig : Str) : Nat → Nat → Str
  | 0, k => orig ++ '_' :: natToStr k
  | fuel + 1, k =>
    if (if k = 0 then orig else orig ++ '_' :: natToStr k) ∈ seen then
      disambigGo seen orig fuel (k + 1)
    else if k = 0 then orig else orig ++ '_' :: natToStr k

def disambig (seen : List Str) (orig : Str) : Str :=
  disambigGo seen orig (seen.length + 1) 0

/-- `build_paragraph` (`transform_raw_data.py` lines 172-202). -/
def build_paragraph (norm : Norm) (number : Str) (body : Str) : Paragraph :=
  { id := strData "bgb-data:" ++ colonSecond norm.id ++ strData "_para_" ++ number
    paragraph_identifier := number
    text_content := body
    defines_concepts := (conceptScan none body).map (fun g =>
      { id := strData "bgb-data:concept_" ++ pyReplaceSpace (strip g)
        label := strip g
        defined_in := strData "bgb-data:" ++ colonSecond norm.id ++
          strData "_para_" ++ number })
    refers_to := (refScanAll body).map (fun m =>
      { target_norm_id := strData "bgb-data:norm_" ++ m.2
        text_snippet := m.1 }) }

/-- The `for number, body in zip(it, it)` loop of `build_paragraphs`:
blank bodies are skipped; a disambiguated number is computed and recorded
in `seen_numbers`, but the paragraph is built from `orig_number`. -/
def paraLoop (norm : Norm) : List Str → List (Str × Str) → List Paragraph
  | _, [] => []
  | seen, (number, body) :: rest =>
    if strip body = [] then paraLoop norm seen rest
    else
      build_paragraph norm number (strip body) ::
        paraLoop norm (disambig seen number :: seen) rest

/-- `build_paragraphs` (`transform_raw_data.py` lines 133-169). -/
def build_paragraphs (text : Str) (norm : Norm) : List Paragraph :=
  if (paraScan text).2 ≠ [] then
    (if strip (paraScan text).1 ≠ [] then
      [build_paragraph norm (strData "0") (strip (paraScan text).1)]
    else []) ++ paraLoop norm [] (paraScan text).2
  else
    (List.enumFrom 1
      (if ((blankSplit text).map strip).filter (· ≠ []) = [] ∧ text ≠ [] then
        [text]
      else ((blankSplit text).map strip).filter (· ≠ []))).map
      (fun p => build_paragraph norm (natToStr p.1) p.2)

/-- One `<norm>` element after metadata extraction
(`transform_raw_data.py` lines 94-112): `enbez` and `titel` are the
already stripped `norm_identifier_text` / `title_text`, `body` the result
of `get_norm_body_text`. -/
structure Provision where
  enbez : Str
  titel : Str
  body : Str
deriving DecidableEq

/-- `NORM_IDENT_RE.search(s)` returning `group(1)`. -/
def normIdentSearch (s : Str) : Option Str := (identScan s).map (fun g => g.2.1)

def mkNormOf (ident : Str) (p : Provision) : Norm :=
  { id := strData "bgb-data:norm_" ++ ident
    norm_identifier := strData "§ " ++ ident
    title := strip (strData "§ " ++ ident ++ ' ' :: p.titel)
    is_repealed := pyContains (pyLower p.titel) (strData "(weggefallen)") ||
      pyContains (pyLower p.body) (strData "(weggefallen)")
    paragraphs := [] }

/-- The per-provision body of `parse_norms_from_xml`
(`transform_raw_data.py` lines 101-126): label first, then title, else the
provision is dropped. -/
def parse_provision (p : Provision) : Option Norm :=
  match normIdentSearch p.enbez with
  | some ident =>
    some { mkNormOf ident p with paragraphs := build_paragraphs p.body (mkNormOf ident p) }
  | none =>
    match normIdentSearch p.titel with
    | some ident =>
      some { mkNormOf ident p with paragraphs := build_paragraphs p.body (mkNormOf ident p) }
    | none => none

/-- A Python `dict[str, LegalConcept]` as an insertion-ordered
association list; `setdefault` / guarded assignment. -/
def insertIfAbsent (m : List (Str × LegalConcept)) (c : LegalConcept) :
    List (Str × LegalConcept) :=
  if m.any (fun e => e.1 == c.id) then m else m ++ [(c.id, c)]

/-- `LegalCode.build_concept_index` (`model.py` lines 105-117). -/
def build_concept_index (code : LegalCode) : List (Str × LegalConcept) :=
  code.norms.foldl
    (fun acc n => n.paragraphs.foldl
      (fun acc2 pa => pa.defines_concepts.foldl insertIfAbsent acc2) acc)
    (code.concepts.foldl insertIfAbsent [])

def indexLookup (m : List (Str × LegalConcept)) (i : Str) : Option LegalConcept :=
  (m.find? (fun e => e.1 == i)).map Prod.snd

/-- All paragraph-local concept mentions, in document order. -/
def localConcepts (code : LegalCode) : List LegalConcept :=
  (code.norms.flatMap Norm.paragraphs).flatMap Paragraph.defines_concepts

/-- Pre-declared globals followed by the paragraph-local mentions: the
insertion order of `build_concept_index`. -/
def allConcepts (code : LegalCode) : List LegalConcept :=
  code.concepts ++ localConcepts code

/-- RDF terms for `build_graph.py`; a `Term.lit` models an `rdflib.Literal`
by its lexical string. -/
inductive Term where
  | uri : Str → Term
  | lit : Str → Term
deriving DecidableEq

abbrev Triple := Term × Term × Term

def dataNS : Str := strData "http://example.org/bgb/data/"
def ontoNS : Str := strData "http://example.org/bgb/ontology/"

/-- `curie_to_uri` (`build_graph.py` lines 27-32). -/
def curie_to_uri (s : Str) : Term :=
  if isPrefOf (strData "bgb-data:") s then Term.uri (dataNS ++ s.drop 9)
  else if isPrefOf (strData "bgb-onto:") s then Term.uri (ontoNS ++ s.drop 9)
  else Term.uri s

def rdfType : Term := Term.uri (strData "http://www.w3.org/1999/02/22-rdf-syntax-ns#type")
def rdfsLabel : Term := Term.uri (strData "http://www.w3.org/2000/01/rdf-schema#label")
def dctermsTitle : Term := Term.uri (strData "http://purl.org/dc/terms/title")
def classLegalCode : Term := curie_to_uri (strData "bgb-onto:LegalCode")
def classNorm : Term := curie_to_uri (strData "bgb-onto:Norm")
def classParagraph : Term := curie_to_uri (strData "bgb-onto:Paragraph")
def classConcept : Term := curie_to_uri (strData "bgb-onto:LegalConcept")
def propHasNorm : Term := curie_to_uri (strData "bgb-onto:hasNorm")
def propHasParagraph : Term := curie_to_uri (strData "bgb-onto:hasParagraph")
def propDefines : Term := curie_to_uri (strData "bgb-onto:defines")
def propRefersTo : Term := curie_to_uri (strData "bgb-onto:refersTo")
def propNormIdentifier : Term := curie_to_uri (strData "bgb-onto:normIdentifier")
def propParaIdentifier : Term := curie_to_uri (strData "bgb-onto:paragraphIdentifier")
def propTextContent : Term := curie_to_uri (strData "bgb-onto:textContent")
def propIsRepealed : Term := curie_to_uri (strData "bgb-onto:isRepealed")

def boolLit (b : Bool) : Term :=
  Term.lit (if b then strData "true" else strData "false")

def paraTriples (normUri : Term) (pa : Paragraph) : List Triple :=
  [(curie_to_uri pa.id, rdfType, classParagraph),
   (normUri, propHasParagraph, curie_to_uri pa.id),
   (curie_to_uri pa.id, propParaIdentifier, Term.lit pa.paragraph_identifier),
   (curie_to_uri pa.id, propTextContent, Term.lit pa.text_content)] ++
  pa.refers_to.map (fun r => (curie_to_uri pa.id, propRefersTo, curie_to_uri r.target_norm_id))

def normTriples (codeUri : Term) (n : Norm) : List Triple :=
  [(curie_to_uri n.id, rdfType, classNorm),
   (codeUri, propHasNorm, curie_to_uri n.id),
   (curie_to_uri n.id, propNormIdentifier, Term.lit n.norm_identifier)] ++
  (if n.title ≠ [] then [(curie_to_uri n.id, dctermsTitle, Term.lit n.title)] else []) ++
  [(curie_to_uri n.id, propIsRepealed, boolLit n.is_repealed)] ++
  n.paragraphs.flatMap (paraTriples (curie_to_uri n.id))

def conceptTriples (c : LegalConcept) : List Triple :=
  [(curie_to_uri c.id, rdfType, classConcept),
   (curie_to_uri c.id, rdfsLabel, Term.lit c.label)] ++
  (if c.defined_in ≠ [] then
    [(curie_to_uri c.defined_in, propDefines, curie_to_uri c.id)] else [])

/-- `build_graph` (`build_graph.py` lines 35-103) applied to the JSON-LD
dump of a `LegalCode` (whose `conceptIndex` is `build_concept_index`). -/
def build_graph (code : LegalCode) : List Triple :=
  [(curie_to_uri code.id, rdfType, classLegalCode),
   (curie_to_uri code.id, dctermsTitle, Term.lit code.title)] ++
  code.norms.flatMap (normTriples (curie_to_uri code.id)) ++
  (build_concept_index code).flatMap (fun e => conceptTriples e.2)

/-- Modelled from the spec: the repository serializes the triple set
through an external RDF library whose code is not under `src/`; per the
spec the output is a namespace-prefixed triple-based text serialization
whose re-parse must reproduce the same triple set.  `esc`/`unesc` encode
the separator characters inside field values. -/
def escCh (c : Char) : Str :=
  if c = '\\' then ['\\', '\\']
  else if c = '\n' then ['\\', 'n']
  else if c = '\t' then ['\\', 't']
  else [c]

def esc (s : Str) : Str := s.flatMap escCh

def unesc : Str → Str
  | [] => []
  | [c] => [c]
  | c :: d :: r2 =>
    if c = '\\' then
      if d = '\\' then '\\' :: unesc r2
      else if d = 'n' then '\n' :: unesc r2
      else if d = 't' then '\t' :: unesc r2
      else c :: unesc (d :: r2)
    else c :: unesc (d :: r2)

/-- Modelled from the spec: a term token, namespace-prefixed where the
identifier lies in one of the two namespaces. -/
def encodeTerm : Term → Str
  | Term.uri s =>
    if isPrefOf dataNS s then strData "bgb-data:" ++ s.drop dataNS.length
    else if isPrefOf ontoNS s then strData "bgb-onto:" ++ s.drop ontoNS.length
    else '<' :: s ++ ['>']
  | Term.lit s => '"' :: s ++ ['"']

def decodeTerm (t : Str) : Option Term :=
  if t.head? = some '"' then
    if t.tail.getLast? = some '"' then some (Term.lit t.tail.dropLast) else none
  else if t.head? = some '<' then
    if t.tail.getLast? = some '>' then some (Term.uri t.tail.dropLast) else none
  else if isPrefOf (strData "bgb-data:") t then some (Term.uri (dataNS ++ t.drop 9))
  else if isPrefOf (strData "bgb-onto:") t then some (Term.uri (ontoNS ++ t.drop 9))
  else none

def encodeTriple (t : Triple) : Str :=
  List.intercalate ['\t']
    [esc (encodeTerm t.1), esc (encodeTerm t.2.1), esc (encodeTerm t.2.2)]

def serializeTriples (ts : List Triple) : Str :=
  List.intercalate ['\n'] (ts.map encodeTriple)

def parseLine (line : Str) : Option Triple :=
  match line.splitOn '\t' with
  | [a, b, c] =>
    match decodeTerm (unesc a), decodeTerm (unesc b), decodeTerm (unesc c) with
    | some x, some y, some z => some (x, y, z)
    | _, _, _ => none
  | _ => none

def parseLines : List Str → Option (List Triple)
  | [] => some []
  | l :: ls =>
    match parseLine l, parseLines ls with
    | some t, some ts => some (t :: ts)
    | _, _ => none

def parseTriples (s : Str) : Option (List Triple) :=
  if s = [] then some [] else parseLines (s.splitOn '\n')

/-- `str()` of an RDF node. -/
def termStr : Term → Str
  | Term.uri s => s
  | Term.lit s => s

def objectsOf (g : List Triple) (s p : Term) : List Term :=
  g.filterMap (fun t => if t.1 = s ∧ t.2.1 = p then some t.2.2 else none)

/-- `re.search(tag + r"(\w+)", uri)` for `tag` = `norm_` / `para_`
(`build_solr_index.py` lines 95-103). -/
def searchTagNum (tag : Str) : Str → Option Str
  | [] => none
  | c :: rest =>
    if isPrefOf tag (c :: rest) ∧ ((c :: rest).drop tag.length).takeWhile isWordCh ≠ [] then
      some (((c :: rest).drop tag.length).takeWhile isWordCh)
    else searchTagNum tag rest

def extract_norm_number (uri : Str) : Option Str := searchTagNum (strData "norm_") uri

def extract_paragraph_number (uri : Str) : Option Str := searchTagNum (strData "para_") uri

def conceptPrefix : Str := dataNS ++ strData "concept_"

/-- `get_related_concepts` (`build_solr_index.py` lines 105-127). -/
def get_related_concepts (g : List Triple) (subj : Term) : List Str :=
  match (objectsOf g subj propTextContent).head? with
  | none => []
  | some o =>
    if termStr o ≠ [] then
      g.filterMap (fun t =>
        if t.2.1 = rdfsLabel ∧ isPrefOf conceptPrefix (termStr t.1) ∧
            pyContains (pyLower (termStr o)) (pyLower (termStr t.2.2)) then
          some (termStr t.1)
        else none)
    else []

/-- A Solr document; unset dict keys are `none` / `[]`. -/
structure SolrDoc where
  id : Str
  uri : Str
  rdf_type : List Str
  doc_type : Str
  title : Option Str
  label : Option Str
  has_norm : List Str
  norm_number : Option Str
  has_paragraph : List Str
  paragraph_number : Option Str
  belongs_to_norm : Option Str
  text_content : Option Str
  mentions_concept : List Str
deriving DecidableEq

def emptyDoc (subj : Term) : SolrDoc :=
  { id := termStr subj, uri := termStr subj, rdf_type := [], doc_type := []
    title := none, label := none, has_norm := [], norm_number := none
    has_paragraph := [], paragraph_number := none, belongs_to_norm := none
    text_content := none, mentions_concept := [] }

/-- `create_document` (`build_solr_index.py` lines 129-202). -/
def create_document (g : List Triple) (subj : Term) : Option SolrDoc :=
  if (ontoNS ++ strData "LegalCode") ∈ (objectsOf g subj rdfType).map termStr then
    some { emptyDoc subj with
      rdf_type := (objectsOf g subj rdfType).map termStr
      doc_type := strData "legal_code"
      title := ((objectsOf g subj dctermsTitle).head?).map termStr
      has_norm := (objectsOf g subj propHasNorm).map termStr }
  else if (ontoNS ++ strData "LegalConcept") ∈ (objectsOf g subj rdfType).map termStr then
    some { emptyDoc subj with
      rdf_type := (objectsOf g subj rdfType).map termStr
      doc_type := strData "legal_concept"
      label := ((objectsOf g subj rdfsLabel).head?).map termStr }
  else if (ontoNS ++ strData "Norm") ∈ (objectsOf g subj rdfType).map termStr then
    some { emptyDoc subj with
      rdf_type := (objectsOf g subj rdfType).map termStr
      doc_type := strData "norm"
      norm_number := extract_norm_number (termStr subj)
      has_paragraph := (objectsOf g subj propHasParagraph).map termStr }
  else if (ontoNS ++ strData "Paragraph") ∈ (objectsOf g subj rdfType).map termStr then
    some { emptyDoc subj with
      rdf_type := (objectsOf g subj rdfType).map termStr
      doc_type := strData "paragraph"
      paragraph_number := extract_paragraph_number (termStr subj)
      norm_number := extract_norm_number (termStr subj)
      belongs_to_norm := (extract_norm_number (termStr subj)).map
        (fun n => dataNS ++ strData "norm_" ++ n)
      text_content := ((objectsOf g subj propTextContent).head?).map termStr
      mentions_concept := get_related_concepts g subj }
  else none

/-! Concrete fixtures used to evaluate the code at specific inputs. -/

def normEx : Norm :=
  { id := strData "bgb-data:norm_7", norm_identifier := strData "§ 7"
    title := strData "§ 7 Test", is_repealed := false, paragraphs := [] }

def norm433 : Norm :=
  { id := strData "bgb-data:norm_433", norm_identifier := strData "§ 433"
    title := strData "§ 433 Vertrag", is_repealed := false, paragraphs := [] }

def scenarioBody : Str :=
  strData "Ein Vertrag ist eine Willenserklärung. (1) Der Käufer zahlt. (2) Der Verkäufer liefert § 5."

def cexCode : LegalCode :=
  { id := strData "bgb-data:BGB", title := strData "BGB", norms := []
    concepts := [{ id := strData "bgb-data:concept_X", label := strData "X"
                   defined_in := [] }] }

def subjPara433 : Term := Term.uri (dataNS ++ strData "norm_433_para_0")

def graph433 : List Triple :=
  [(subjPara433, rdfType, classParagraph),
   (Term.uri (dataNS ++ strData "norm_433"), rdfType, classNorm),
   (Term.uri (dataNS ++ strData "norm_433"), propHasParagraph, subjPara433),
   (subjPara433, propTextContent, Term.lit (strData "Der Käufer zahlt."))]

def subjParaW : Term := Term.uri (dataNS ++ strData "norm_13_para_1")

def graphW : List Triple :=
  [(subjParaW, rdfType, classParagraph),
   (subjParaW, propTextContent, Term.lit (strData "Der Verbraucherschutz gilt.")),
   (Term.uri (dataNS ++ strData "concept_Verbraucher"), rdfType, classConcept),
   (Term.uri (dataNS ++ strData "concept_Verbraucher"), rdfsLabel,
     Term.lit (strData "Verbraucher"))]

def provEx : Provision :=
  { enbez := strData "§  23a", titel := strData "Titel", body := [] }

/-! ## Claim theorems -/

/-- C1: evaluation of `build_paragraphs` at the failing input
`"(1) a (1) b"`.  Both occurrences of paragraph number 1 are preserved as
separate records, but they carry the *same* id
`bgb-data:norm_7_para_1` and the same displayed identifier: the
disambiguation suffix computed in the collision loop is never attached,
because `build_paragraph` is called with `orig_number`.  This refutes the
claimed within-norm id uniqueness. -/
theorem C1_duplicate_paragraph_ids_eval :
    ((build_paragraphs (strData "(1) a (1) b") normEx).map Paragraph.id,
     (build_paragraphs (strData "(1) a (1) b") normEx).map Paragraph.paragraph_identifier,
     (build_paragraphs (strData "(1) a (1) b") normEx).map Paragraph.text_content) =
      ([strData "bgb-data:norm_7_para_1", strData "bgb-data:norm_7_para_1"],
       [strData "1", strData "1"],
       [strData "a", strData "b"]) := by decide

/-- C2: evaluation of `create_document` at the failing input, a Paragraph
subject with URI `…/norm_433_para_0`.  Because `norm_(\w+)` captures
greedily and `_` is a word character, the extracted owning norm-number
token is `433_para_0` (not `433`) and `belongs_to_norm` is the
paragraph's own URI rather than the owning norm's id `…/norm_433`. -/
theorem C2_belongs_to_norm_eval :
    ((create_document graph433 subjPara433).map SolrDoc.doc_type,
     (create_document graph433 subjPara433).map SolrDoc.norm_number,
     (create_document graph433 subjPara433).map SolrDoc.belongs_to_norm) =
      (some (strData "paragraph"),
       some (some (strData "433_para_0")),
       some (some (dataNS ++ strData "norm_433_para_0"))) ∧
    some (some (strData "433_para_0")) ≠ some (some (strData "433")) ∧
    some (some (dataNS ++ strData "norm_433_para_0")) ≠
      some (some (dataNS ++ strData "norm_433")) := by decide

/-- C4: evaluation at the failing input.  An empty body does yield zero
paragraphs, but a whitespace-only body `"   "` yields one paragraph whose
`text_content` is the whitespace itself (empty after trimming): the
fallback branch `if not chunks and text: chunks = [text]` fires exactly
for whitespace-only text. -/
theorem C4_whitespace_body_eval :
    build_paragraphs [] normEx = [] ∧
    (build_paragraphs (strData "   ") normEx).map Paragraph.text_content =
      [strData "   "] ∧
    strip (strData "   ") = [] := by decide

/-- C5 counterexample: the body `"(1)(2) x"` contains `k = 2` markers and
empty leading text, but the splitter produces 1 paragraph, not the
claimed 2: the blank body between `(1)` and `(2)` is silently dropped. -/
theorem C5_blank_marker_body_cex :
    (paraScan (strData "(1)(2) x")).2.length = 2 ∧
    strip (paraScan (strData "(1)(2) x")).1 = [] ∧
    (build_paragraphs (strData "(1)(2) x") normEx).length = 1 := by decide

/-- C7 counterexample: a `LegalCode` with one explicitly pre-declared
global concept and no norms has a concept table of size 1, exceeding the
0 paragraph-local concept mentions. -/
theorem C7_globals_exceed_mentions_cex :
    ¬ ((build_concept_index cexCode).length ≤ (localConcepts cexCode).length) := by
  decide

/-- C3 counterexample: on the scenario body under norm 433 the definition
heuristic captures the label `"Ein Vertrag"` (the regex absorbs the
capitalized article into the multi-word group), so no produced concept
carries the claimed label `"Vertrag"`. -/
theorem C3_concept_label_cex :
    strData "Vertrag" ∉
      ((build_paragraphs scenarioBody norm433).flatMap Paragraph.defines_concepts).map
        LegalConcept.label := by decide

/-- C3 amended: the scenario yields paragraph "0" with the leading
sentence as text, one concept — label `"Ein Vertrag"` (not `"Vertrag"`),
id `bgb-data:concept_Ein_Vertrag` — defined in
`bgb-data:norm_433_para_0`, and paragraph "2" carrying the single
`Reference` to `bgb-data:norm_5` with snippet `"§ 5"`. -/
theorem C3_scenario_amended :
    (build_paragraphs scenarioBody norm433).map Paragraph.paragraph_identifier =
      [strData "0", strData "1", strData "2"] ∧
    (build_paragraphs scenarioBody norm433).map Paragraph.id =
      [strData "bgb-data:norm_433_para_0", strData "bgb-data:norm_433_para_1",
       strData "bgb-data:norm_433_para_2"] ∧
    (build_paragraphs scenarioBody norm433).map Paragraph.text_content =
      [strData "Ein Vertrag ist eine Willenserklärung.",
       strData "Der Käufer zahlt.",
       strData "Der Verkäufer liefert § 5."] ∧
    (build_paragraphs scenarioBody norm433).flatMap Paragraph.defines_concepts =
      [{ id := strData "bgb-data:concept_Ein_Vertrag"
         label := strData "Ein Vertrag"
         defined_in := strData "bgb-data:norm_433_para_0" }] ∧
    (build_paragraphs scenarioBody norm433).flatMap Paragraph.refers_to =
      [{ target_norm_id := strData "bgb-data:norm_5"
         text_snippet := strData "§ 5" }] := by decide

theorem paraLoopLen (norm : Norm) :
    ∀ (pairs : List (Str × Str)) (seen : List Str),
      (∀ pr ∈ pairs, strip pr.2 ≠ []) →
      (paraLoop norm seen pairs).length = pairs.length := by
  intro pairs
  induction pairs with
  | nil => intro seen _; rfl
  | cons q rest ih =>
    intro seen h
    rcases q with ⟨number, body⟩
    rw [paraLoop, if_neg (h (number, body) (List.mem_cons_self _ _))]
    simp only [List.length_cons]
    rw [ih _ (fun pr hpr => h pr (List.mem_cons_of_mem _ hpr))]

/-- C5 amended: with `k ≥ 1` markers the splitter produces
`k + (1 if the leading text is non-blank else 0)` paragraphs *provided
every marker's following segment is non-blank after trimming*; blank
segments are silently dropped (see the counterexample), so in general
only the non-blank segments are counted. -/
theorem C5_splitter_count_amended (text : Str) (norm : Norm)
    (hk : (paraScan text).2 ≠ [])
    (hb : ∀ pr ∈ (paraScan text).2, strip pr.2 ≠ []) :
    (build_paragraphs text norm).length =
      (paraScan text).2.length +
        (if strip (paraScan text).1 = [] then 0 else 1) := by
  rw [build_paragraphs, if_pos hk, List.length_append,
    paraLoopLen norm _ [] hb]
  by_cases hl : strip (paraScan text).1 = []
  · rw [if_neg ( fun hC => hC hl), if_pos hl]
    simp
  · rw [if_pos hl, if_neg hl]
    simp [Nat.add_comm]

/-- Witness for the amended C5 at `"a(1)b"`: one marker, non-blank
leading text, two paragraphs. -/
theorem C5_splitter_count_amended_witness :
    (paraScan (strData "a(1)b")).2 ≠ [] ∧
    (build_paragraphs (strData "a(1)b") normEx).length =
      (paraScan (strData "a(1)b")).2.length +
        (if strip (paraScan (strData "a(1)b")).1 = [] then 0 else 1) :=
  ⟨by decide, C5_splitter_count_amended (strData "a(1)b") normEx (by decide) (by decide)⟩

theorem hasKeyFind (m : List (Str × LegalConcept)) (i : Str) :
    m.any (fun e => e.1 == i) = (m.find? (fun e => e.1 == i)).isSome := by
  induction m with
  | nil => rfl
  | cons e es ih =>
    rw [List.any_cons, List.find?_cons]
    cases he : (e.1 == i)
    · simpa using ih
    · simp

theorem findInsert (m : List (Str × LegalConcept)) (c : LegalConcept) (i : Str) :
    (insertIfAbsent m c).find? (fun e => e.1 == i) =
      (m.find? (fun e => e.1 == i)).or
        (if c.id == i then some (c.id, c) else none) := by
  rw [insertIfAbsent]
  by_cases hk : m.any (fun e => e.1 == c.id) = true
  · rw [if_pos hk]
    cases hv : m.find? (fun e => e.1 == i) with
    | some v => simp [Option.or]
    | none =>
      by_cases hci : (c.id == i) = true
      · exfalso
        have hci2 : c.id = i := beq_iff_eq.1 hci
        rw [hci2, hasKeyFind, hv] at hk
        simp at hk
      · simp [Option.or, hci]
  · rw [if_neg hk, List.find?_append]
    cases hci : (c.id == i) <;> simp [List.find?_cons, hci]

theorem findFold (l : List LegalConcept) :
    ∀ (m : List (Str × LegalConcept)) (i : Str),
      (l.foldl insertIfAbsent m).find? (fun e => e.1 == i) =
        (m.find? (fun e => e.1 == i)).or
          ((l.find? (fun c => c.id == i)).map (fun c => (c.id, c))) := by
  induction l with
  | nil =>
    intro m i
    rw [List.foldl_nil, List.find?_nil]
    cases hv : m.find? (fun e => e.1 == i) <;> simp [Option.or, hv]
  | cons c rest ih =>
    intro m i
    rw [List.foldl_cons, ih, findInsert, List.find?_cons]
    cases hci : (c.id == i)
    · cases hv : m.find? (fun e => e.1 == i) <;> simp [Option.or, hv]
    · cases hv : m.find? (fun e => e.1 == i) <;> simp [Option.or, hv]

theorem paraFoldFlat (ps : List Paragraph) :
    ∀ m, ps.foldl (fun a p => p.defines_concepts.foldl insertIfAbsent a) m =
      (ps.flatMap Paragraph.defines_concepts).foldl insertIfAbsent m := by
  induction ps with
  | nil => intro m; rfl
  | cons p rest ih =>
    intro m
    rw [List.foldl_cons, ih, List.flatMap_cons, List.foldl_append]

theorem normFoldFlat (ns : List Norm) :
    ∀ m, ns.foldl (fun acc n => n.paragraphs.foldl
        (fun a p => p.defines_concepts.foldl insertIfAbsent a) acc) m =
      ((ns.flatMap Norm.paragraphs).flatMap Paragraph.defines_concepts).foldl
        insertIfAbsent m := by
  induction ns with
  | nil => intro m; rfl
  | cons n rest ih =>
    intro m
    rw [List.foldl_cons, ih, List.flatMap_cons, List.flatMap_append,
      List.foldl_append, paraFoldFlat]

theorem buildIndexFlat (code : LegalCode) :
    build_concept_index code = (allConcepts code).foldl insertIfAbsent [] := by
  rw [build_concept_index, normFoldFlat, allConcepts, List.foldl_append, localConcepts]

/-- C6: `build_concept_index` realizes first-occurrence-wins over the
sequence pre-declared globals, then paragraph-local concepts in document
order (norms, then paragraphs, then their concepts): the table's entry for
any id is exactly the *first* concept with that id in that sequence, so a
later concept with the same id is dropped entirely, whatever its label or
`defined_in`. -/
theorem C6_first_occurrence_wins (code : LegalCode) (i : Str) :
    indexLookup (build_concept_index code) i =
      (allConcepts code).find? (fun c => c.id == i) := by
  rw [indexLookup, buildIndexFlat, findFold, List.find?_nil]
  cases hv : (allConcepts code).find? (fun c => c.id == i) <;> simp [Option.or]

theorem insertLen (m : List (Str × LegalConcept)) (c : LegalConcept) :
    (insertIfAbsent m c).length ≤ m.length + 1 := by
  rw [insertIfAbsent]
  by_cases hk : m.any (fun e => e.1 == c.id) = true
  · rw [if_pos hk]; omega
  · rw [if_neg hk, List.length_append]; simp

theorem foldLen (l : List LegalConcept) :
    ∀ m, ((l.foldl insertIfAbsent m).length ≤ m.length + l.length) := by
  induction l with
  | nil => intro m; simp
  | cons c rest ih =>
    intro m
    rw [List.foldl_cons]
    have h1 := ih (insertIfAbsent m c)
    have h2 := insertLen m c
    simp only [List.length_cons]
    omega

theorem insertNodup (m : List (Str × LegalConcept)) (c : LegalConcept)
    (h : (m.map Prod.fst).Nodup) : ((insertIfAbsent m c).map Prod.fst).Nodup := by
  rw [insertIfAbsent]
  by_cases hk : m.any (fun e => e.1 == c.id) = true
  · rw [if_pos hk]; exact h
  · rw [if_neg hk, List.map_append]
    rw [List.nodup_append]
    refine ⟨h, by simp, ?_⟩
    intro a ha hb
    simp only [List.map_cons, List.map_nil, List.mem_singleton] at hb
    subst hb
    obtain ⟨e, he, hfst⟩ := List.mem_map.mp ha
    have hkf : m.any (fun e => e.1 == c.id) = false := by
      cases hx : m.any (fun e => e.1 == c.id)
      · rfl
      · exact absurd hx hk
    have hall := List.any_eq_false.mp hkf e he
    simp only [beq_iff_eq] at hall
    exact hall hfst

theorem foldNodup (l : List LegalConcept) :
    ∀ m, (m.map Prod.fst).Nodup → ((l.foldl insertIfAbsent m).map Prod.fst).Nodup := by
  induction l with
  | nil => intro m h; exact h
  | cons c rest ih =>
    intro m h
    rw [List.foldl_cons]
    exact ih _ (insertNodup m c h)

/-- C7 amended: the concept table's size is bounded by the pre-declared
globals *plus* the paragraph-local mentions (the claimed bound by local
mentions alone fails when globals exist, see the counterexample), and the
table never contains two entries with the same id. -/
theorem C7_size_and_uniqueness_amended (code : LegalCode) :
    (build_concept_index code).length ≤
      code.concepts.length + (localConcepts code).length ∧
    ((build_concept_index code).map Prod.fst).Nodup := by
  rw [buildIndexFlat]
  constructor
  · have h := foldLen (allConcepts code) []
    have h2 : (allConcepts code).length =
        code.concepts.length + (localConcepts code).length := by
      rw [allConcepts, List.length_append]
    simp only [List.length_nil] at h
    omega
  · exact foldNodup (allConcepts code) [] (by simp)

theorem escChNe (c : Char) : escCh c ≠ [] := by
  rw [escCh]; split_ifs <;> simp

theorem escCons (c : Char) (r : Str) : esc (c :: r) = escCh c ++ esc r := by
  simp [esc]

theorem unescEsc (s : Str) : unesc (esc s) = s := by
  induction s with
  | nil => rfl
  | cons c r ih =>
    rw [escCons, escCh]
    by_cases h1 : c = '\\'
    · subst h1
      rw [if_pos rfl]
      rw [show (['\\', '\\'] ++ esc r) = '\\' :: '\\' :: esc r from rfl, unesc]
      simp [ih]
    · rw [if_neg h1]
      by_cases h2 : c = '\n'
      · subst h2
        rw [if_pos rfl]
        rw [show (['\\', 'n'] ++ esc r) = '\\' :: 'n' :: esc r from rfl, unesc]
        simp [ih]
      · rw [if_neg h2]
        by_cases h3 : c = '\t'
        · subst h3
          rw [if_pos rfl]
          rw [show (['\\', 't'] ++ esc r) = '\\' :: 't' :: esc r from rfl, unesc]
          simp [ih]
        · rw [if_neg h3]
          rw [show ([c] ++ esc r) = c :: esc r from rfl]
          cases hr : esc r with
          | nil =>
            have hrnil : r = [] := by
              cases r with
              | nil => rfl
              | cons d r2 =>
                rw [escCons] at hr
                exact absurd (List.append_eq_nil.mp hr).1 (escChNe d)
            subst hrnil
            rfl
          | cons d r2 =>
            rw [unesc, if_neg h1, ← hr, ih]

theorem escMem (s : Str) (x : Char) (hx : x ∈ esc s) : x ≠ '\n' ∧ x ≠ '\t' := by
  induction s with
  | nil => simp [esc] at hx
  | cons c r ih =>
    rw [escCons] at hx
    rcases List.mem_append.mp hx with hm | hm
    · rw [escCh] at hm
      split_ifs at hm with h1 h2 h3
      · simp at hm; subst hm; exact ⟨by decide, by decide⟩
      · simp at hm
        rcases hm with rfl | rfl <;> exact ⟨by decide, by decide⟩
      · simp at hm
        rcases hm with rfl | rfl <;> exact ⟨by decide, by decide⟩
      · simp at hm; subst hm; exact ⟨h2, h3⟩
    · exact ih hm

theorem isPrefOfApp (p x : Str) : isPrefOf p (p ++ x) = true := by
  induction p with
  | nil => rfl
  | cons a as ih => simp [isPrefOf, ih]

theorem prefixDropApp (p : Str) : ∀ (s : Str), isPrefOf p s = true →
    p ++ s.drop p.length = s := by
  induction p with
  | nil => intro s _; simp
  | cons a as ih =>
    intro s h
    cases s with
    | nil => simp [isPrefOf] at h
    | cons b bs =>
      rw [isPrefOf] at h
      simp only [Bool.and_eq_true, decide_eq_true_eq] at h
      rcases h with ⟨he, hp⟩
      subst he
      simp only [List.cons_append, List.length_cons, List.drop_succ_cons,
        List.cons.injEq, true_and]
      exact ih bs hp

theorem decodeEncode (t : Term) : decodeTerm (encodeTerm t) = some t := by
  cases t with
  | lit s =>
    rw [encodeTerm, decodeTerm,
      if_pos (show (('"' :: s) ++ ['"']).head? = some '"' from rfl),
      show (('"' :: s) ++ ['"']).tail = s ++ ['"'] from rfl,
      List.getLast?_concat, List.dropLast_concat]
    simp
  | uri s =>
    rw [encodeTerm]
    by_cases h1 : isPrefOf dataNS s = true
    · rw [if_pos h1]
      show some (Term.uri (dataNS ++ s.drop dataNS.length)) = some (Term.uri s)
      rw [prefixDropApp dataNS s h1]
    · rw [if_neg h1]
      by_cases h2 : isPrefOf ontoNS s = true
      · rw [if_pos h2]
        show some (Term.uri (ontoNS ++ s.drop ontoNS.length)) = some (Term.uri s)
        rw [prefixDropApp ontoNS s h2]
      · rw [if_neg h2, decodeTerm, if_neg (by simp),
          if_pos (show (('<' :: s) ++ ['>']).head? = some '<' from rfl),
          show (('<' :: s) ++ ['>']).tail = s ++ ['>'] from rfl,
          List.getLast?_concat, List.dropLast_concat]
        simp

theorem intercalate3 (sep a b c : Str) :
    List.intercalate sep [a, b, c] = a ++ sep ++ b ++ sep ++ c := by
  simp [List.intercalate]

theorem encodeTripleNe (t : Triple) : encodeTriple t ≠ [] := by
  rw [encodeTriple, intercalate3]
  intro h
  simp [List.append_eq_nil] at h

theorem nlNotInLine (t : Triple) : '\n' ∉ encodeTriple t := by
  rw [encodeTriple, intercalate3]
  intro hmem
  simp only [List.mem_append, List.mem_singleton] at hmem
  rcases hmem with ((((h | h) | h) | h) | h)
  · exact (escMem _ _ h).1 rfl
  · exact absurd h (by decide)
  · exact (escMem _ _ h).1 rfl
  · exact absurd h (by decide)
  · exact (escMem _ _ h).1 rfl

theorem lineSplit (t : Triple) :
    (encodeTriple t).splitOn '\t' =
      [esc (encodeTerm t.1), esc (encodeTerm t.2.1), esc (encodeTerm t.2.2)] := by
  rw [encodeTriple]
  refine List.splitOn_intercalate _ '\t' ?_ (by simp)
  intro l hl
  simp only [List.mem_cons, List.not_mem_nil, or_false] at hl
  rcases hl with h | h | h <;> (subst h; intro hmem; exact (escMem _ _ hmem).2 rfl)

theorem parseLineEnc (t : Triple) : parseLine (encodeTriple t) = some t := by
  rw [parseLine, lineSplit]
  simp [unescEsc, decodeEncode]

theorem parseLinesEnc (ts : List Triple) :
    parseLines (ts.map encodeTriple) = some ts := by
  induction ts with
  | nil => rfl
  | cons t rest ih =>
    rw [List.map_cons, parseLines, parseLineEnc, ih]

theorem parseSerialize (ts : List Triple) :
    parseTriples (serializeTriples ts) = some ts := by
  cases ts with
  | nil => rfl
  | cons t rest =>
    have hnl : ∀ l ∈ (t :: rest).map encodeTriple, '\n' ∉ l := by
      intro l hl
      obtain ⟨u, _, rfl⟩ := List.mem_map.mp hl
      exact nlNotInLine u
    have hsplit := List.splitOn_intercalate ((t :: rest).map encodeTriple) '\n' hnl (by simp)
    have hser : serializeTriples (t :: rest) =
        ['\n'].intercalate ((t :: rest).map encodeTriple) := rfl
    have hne : serializeTriples (t :: rest) ≠ [] := by
      intro h0
      rw [hser] at h0
      rw [h0] at hsplit
      rw [List.splitOn_nil, List.map_cons] at hsplit
      injection hsplit with ha _
      exact encodeTripleNe t ha.symm
    rw [parseTriples, if_neg hne, hser, hsplit]
    exact parseLinesEnc (t :: rest)

/-- C8: round-trip law.  Serializing the triple set produced by the graph
serializer to the namespace-prefixed triple text format and re-parsing
that text yields a triple set equal as a set to the one produced
directly; here re-parsing in fact reproduces the very same list of
triples.  (The textual format itself is modelled from the spec, since the
RDF serialization library is not part of the repository sources.) -/
theorem C8_serializer_roundtrip (code : LegalCode) :
    ∃ ts, parseTriples (serializeTriples (build_graph code)) = some ts ∧
      ∀ tr, tr ∈ ts ↔ tr ∈ build_graph code :=
  ⟨build_graph code, parseSerialize _, fun _ => Iff.rfl⟩

theorem subOfNe (n h : Str) (hs : isSubOf n h = true) (hn : n ≠ []) : h ≠ [] := by
  intro h0
  subst h0
  cases n with
  | nil => exact hn rfl
  | cons a as => simp [isSubOf, isPrefOf] at hs

/-- C9: if a known concept (a subject with an `rdfs:label` whose URI lies
under the concept prefix, with a non-empty label) has its label occurring
as a case-insensitive substring of a Paragraph subject's text content —
no word-boundary requirement — then the produced paragraph search
document lists that concept's URI in `mentions_concept`. -/
theorem C9_substring_mention (g : List Triple) (subj c l o : Term)
    (hmem : (c, rdfsLabel, l) ∈ g)
    (hpre : isPrefOf conceptPrefix (termStr c) = true)
    (hlab : termStr l ≠ [])
    (htext : (objectsOf g subj propTextContent).head? = some o)
    (hsub : pyContains (pyLower (termStr o)) (pyLower (termStr l)) = true)
    (hP : (ontoNS ++ strData "Paragraph") ∈ (objectsOf g subj rdfType).map termStr)
    (hC : (ontoNS ++ strData "LegalCode") ∉ (objectsOf g subj rdfType).map termStr)
    (hCo : (ontoNS ++ strData "LegalConcept") ∉ (objectsOf g subj rdfType).map termStr)
    (hN : (ontoNS ++ strData "Norm") ∉ (objectsOf g subj rdfType).map termStr) :
    ∃ d, create_document g subj = some d ∧ termStr c ∈ d.mentions_concept := by
  rw [create_document, if_neg hC, if_neg hCo, if_neg hN, if_pos hP]
  refine ⟨_, rfl, ?_⟩
  show termStr c ∈ get_related_concepts g subj
  have hlo : pyLower (termStr l) ≠ [] := by
    intro hh
    exact hlab (List.map_eq_nil_iff.mp hh)
  have hON : termStr o ≠ [] := by
    intro h0
    have hol : pyLower (termStr o) = [] := by rw [h0]; rfl
    exact subOfNe _ _ hsub hlo hol
  rw [get_related_concepts, htext]
  show termStr c ∈ (if termStr o ≠ [] then
      g.filterMap (fun t =>
        if t.2.1 = rdfsLabel ∧ isPrefOf conceptPrefix (termStr t.1) ∧
            pyContains (pyLower (termStr o)) (pyLower (termStr t.2.2)) then
          some (termStr t.1)
        else none)
    else [])
  rw [if_pos hON]
  refine List.mem_filterMap.mpr ⟨(c, rdfsLabel, l), hmem, ?_⟩
  rw [if_pos ⟨rfl, hpre, hsub⟩]

/-- Witness for C9: a paragraph whose text contains `Verbraucherschutz`
lists the concept labeled `Verbraucher` — embedded-substring match. -/
theorem C9_substring_mention_witness :
    ∃ d, create_document graphW subjParaW = some d ∧
      termStr (Term.uri (dataNS ++ strData "concept_Verbraucher")) ∈
        d.mentions_concept :=
  C9_substring_mention graphW subjParaW
    (Term.uri (dataNS ++ strData "concept_Verbraucher"))
    (Term.lit (strData "Verbraucher"))
    (Term.lit (strData "Der Verbraucherschutz gilt."))
    (by decide) (by decide) (by decide) (by decide) (by decide)
    (by decide) (by decide) (by decide) (by decide)

theorem allTakeWhile (p : Char → Bool) (l : Str) : (l.takeWhile p).all p = true := by
  induction l with
  | nil => rfl
  | cons c t ih =>
    rw [List.takeWhile]
    cases hp : p c
    · rfl
    · simp [hp, ih]

theorem identScanShape (s : Str) (g : Str × Str × Str) :
    identScan s = some g →
      ∃ ds l, g.2.1 = ds ++ l ∧ ds ≠ [] ∧ ds.all Char.isDigit = true ∧
        (l = [] ∨ ∃ c2, l = [c2] ∧ isAsciiAlpha c2 = true) := by
  induction s with
  | nil => intro h; simp [identScan] at h
  | cons c rest ih =>
    intro h
    rw [identScan] at h
    by_cases hc : c = '§' ∧ (rest.dropWhile isPySpace).takeWhile Char.isDigit ≠ []
    · rw [if_pos hc] at h
      split at h
      · next l2 r2 _ =>
        split at h
        · next hl =>
          simp only [Option.some.injEq] at h
          refine ⟨(rest.dropWhile isPySpace).takeWhile Char.isDigit, [l2], ?_,
            hc.2, allTakeWhile _ _, Or.inr ⟨l2, rfl, hl⟩⟩
          rw [← h]
        · refine ⟨(rest.dropWhile isPySpace).takeWhile Char.isDigit, [], ?_,
            hc.2, allTakeWhile _ _, Or.inl rfl⟩
          simp only [Option.some.injEq] at h
          rw [← h, List.append_nil]
      · refine ⟨(rest.dropWhile isPySpace).takeWhile Char.isDigit, [], ?_,
          hc.2, allTakeWhile _ _, Or.inl rfl⟩
        simp only [Option.some.injEq] at h
        rw [← h, List.append_nil]
    · rw [if_neg hc] at h
      exact ih h

/-- C10: a provision whose label matches `NORM_IDENT_RE` — or, failing
that, whose title matches — is materialized as a Norm whose
`norm_identifier` is exactly the normalized string `"§ " ++ n` where `n`
is one-or-more digits followed by at most one ASCII letter (whatever the
spacing after `§` in the source text); a provision matching in neither
field yields no Norm. -/
theorem C10_norm_identifier (p : Provision) :
    (normIdentSearch p.enbez = none → normIdentSearch p.titel = none →
      parse_provision p = none) ∧
    (∀ n, (normIdentSearch p.enbez = some n ∨
        (normIdentSearch p.enbez = none ∧ normIdentSearch p.titel = some n)) →
      ∃ nm, parse_provision p = some nm ∧
        nm.norm_identifier = strData "§ " ++ n ∧
        ∃ ds l, n = ds ++ l ∧ ds ≠ [] ∧ ds.all Char.isDigit = true ∧
          (l = [] ∨ ∃ c2, l = [c2] ∧ isAsciiAlpha c2 = true)) := by
  constructor
  · intro h1 h2
    rw [parse_provision, h1, h2]
  · intro n hn
    have hshape : ∀ (src : Str), normIdentSearch src = some n →
        ∃ ds l, n = ds ++ l ∧ ds ≠ [] ∧ ds.all Char.isDigit = true ∧
          (l = [] ∨ ∃ c2, l = [c2] ∧ isAsciiAlpha c2 = true) := by
      intro src hsrc
      rw [normIdentSearch] at hsrc
      obtain ⟨g, hg, hgn⟩ := Option.map_eq_some'.mp hsrc
      obtain ⟨ds, l, hdl, hne, hall, hl⟩ := identScanShape src g hg
      exact ⟨ds, l, by rw [← hgn, hdl], hne, hall, hl⟩
    rcases hn with hs | ⟨hnone, hs⟩
    · refine ⟨_, by rw [parse_provision, hs], rfl, hshape p.enbez hs⟩
    · refine ⟨_, by rw [parse_provision, hnone, hs], rfl, hshape p.titel hs⟩

/-- Witness for C10 at a provision labeled `"§  23a"` (double space):
the identifier normalizes to `"§ 23a"`. -/
theorem C10_norm_identifier_witness :
    normIdentSearch provEx.enbez = some (strData "23a") ∧
    ∃ nm, parse_provision provEx = some nm ∧
      nm.norm_identifier = strData "§ " ++ strData "23a" ∧
      ∃ ds l, strData "23a" = ds ++ l ∧ ds ≠ [] ∧ ds.all Char.isDigit = true ∧
        (l = [] ∨ ∃ c2, l = [c2] ∧ isAsciiAlpha c2 = true) :=
  ⟨by decide, (C10_norm_identifier provEx).2 (strData "23a") (Or.inl (by decide))⟩

end KG
